import Mathlib

/-!
Verification of the geometry-normalization-and-classification pipeline of
`NasaDataAPI.py` (repository Ajaberr/NasaKG).

The Python source is shallowly embedded: coordinates are rational numbers,
shapely geometries become the inductive `Geom`, pandas rows of the spatial
join become `JoinRow` (a matched boundary row, or `none` for the null row a
left join produces when a record geometry intersects nothing), Python `set`s
of strings become insertion-ordered duplicate-free lists, and code that can
raise (the pairwise coordinate loop indexing `coords[i+1]`, the shapely
`Polygon` constructor on a 3-coordinate closed ring) returns `Except`.
The shapely `unary_union` and the geopandas `sjoin` predicate are abstracted
as explicit function parameters (`union`, `intersects`); `pd.to_datetime` is
abstracted as a parameter `parseDT` returning seconds since an epoch.
-/

namespace NasaKG

/-- Shapely geometry values, as far as the source distinguishes them:
the source only ever inspects `geom_type` and, for collections, `geoms`. -/
inductive Geom where
  | point : ℚ × ℚ → Geom
  | lineString : List (ℚ × ℚ) → Geom
  | polygon : List (ℚ × ℚ) → Geom
  | multiPolygon : List (List (ℚ × ℚ)) → Geom
  | geometryCollection : List Geom → Geom

/-- `geom.geom_type` of shapely. -/
def Geom.geomType : Geom → String
  | .point _ => "Point"
  | .lineString _ => "LineString"
  | .polygon _ => "Polygon"
  | .multiPolygon _ => "MultiPolygon"
  | .geometryCollection _ => "GeometryCollection"

/-- The test `gtype in ["Polygon", "MultiPolygon"]` used at lines 77 and 81
of the source. -/
def Geom.isPoly (g : Geom) : Bool :=
  decide (g.geomType = "Polygon" ∨ g.geomType = "MultiPolygon")

/-- `extract_polygons` (source lines 67-90): keep a Polygon/MultiPolygon as
is, extract the polygonal members of a GeometryCollection (none: `None`;
one: that member; several: their `unary_union`), drop anything else.
`union` stands for `shapely.ops.unary_union`. -/
def extract_polygons (union : List Geom → Geom) : Option Geom → Option Geom
  | none => none
  | some g =>
    if g.isPoly then some g
    else
      match g with
      | .geometryCollection gs =>
        match gs.filter Geom.isPoly with
        | [] => none
        | [p] => some p
        | polys => some (union polys)
      | _ => none

/-- The box branch of `parse_cmr_spatial` (source lines 102-115): a box is
its whitespace-split tokens, already read as numbers; exactly four tokens
`[southLat, westLon, northLat, eastLon]` give the closed rectangle, any
other count is skipped (`None` here, `filterMap` at the call site). -/
def parseBox (b : List ℚ) : Option Geom :=
  match b with
  | [southLat, westLon, northLat, eastLon] =>
    some (.polygon
      [(westLon, southLat), (eastLon, southLat), (eastLon, northLat),
       (westLon, northLat), (westLon, southLat)])
  | _ => none

/-- The loop `for i in range(0, len(coords), 2): lat = coords[i];
lon = coords[i+1]; pairs.append((lon, lat))` (source lines 126-129).
An odd number of tokens makes `coords[i+1]` raise IndexError at the last
step, which the source does not catch. -/
def pairUp : List ℚ → Except String (List (ℚ × ℚ))
  | [] => .ok []
  | [_] => .error "IndexError"
  | lat :: lon :: rest => (pairUp rest).map (fun ps => (lon, lat) :: ps)

/-- `if pairs and pairs[0] != pairs[-1]: pairs.append(pairs[0])`
(source lines 131-132). -/
def closeRing (pairs : List (ℚ × ℚ)) : List (ℚ × ℚ) :=
  match pairs with
  | [] => []
  | p :: _ => if pairs.getLast? = some p then pairs else pairs ++ [p]

/-- One polygon descriptor of `parse_cmr_spatial` (source lines 120-134):
fewer than 6 tokens is skipped; tokens are paired as (lat, lon) and stored
as (lon, lat); the ring is closed when open; `if len(pairs) > 2` guards the
`Polygon(pairs)` call. A closed ring of exactly 3 coordinates makes the
shapely `Polygon` constructor raise (a LinearRing needs 0 or at least 4
coordinates), which the source does not catch. -/
def parsePolyStr (coords : List ℚ) : Except String (Option Geom) :=
  if coords.length < 6 then .ok none
  else
    match pairUp coords with
    | .error e => .error e
    | .ok pairs0 =>
      let pairs := closeRing pairs0
      if 2 < pairs.length then
        if pairs.length = 3 then .error "ValueError"
        else .ok (some (.polygon pairs))
      else .ok none

/-- The flattened double loop `for poly_list in polygons: for poly_str in
poly_list` (source lines 119-134), collecting the shapes that survive. -/
def collectPolyShapes : List (List ℚ) → Except String (List Geom)
  | [] => .ok []
  | c :: rest =>
    match parsePolyStr c with
    | .error e => .error e
    | .ok none => collectPolyShapes rest
    | .ok (some g) =>
      match collectPolyShapes rest with
      | .error e => .error e
      | .ok gs => .ok (g :: gs)

/-- `parse_cmr_spatial` (source lines 93-147): boxes then polygons are
turned into shapes (points are accepted but never used, line 136); no
shape gives `None`, one shape is taken as is, several are merged with
`unary_union`; the result goes through `extract_polygons`. -/
def parse_cmr_spatial (union : List Geom → Geom)
    (boxes : List (List ℚ)) (polygons : List (List (List ℚ)))
    (points : List (List ℚ)) : Except String (Option Geom) :=
  match collectPolyShapes polygons.flatten with
  | .error e => .error e
  | .ok polyShapes =>
    match boxes.filterMap parseBox ++ polyShapes with
    | [] => .ok none
    | [s] => .ok (extract_polygons union (some s))
    | shapes => .ok (extract_polygons union (some (union shapes)))

/-- An administrative-boundary row as the classifier reads it: the three
attribute columns `NAME_2` (city), `ADMIN` (country), `CONTINENT`
(source lines 160-162). `none` is a missing value. -/
structure BRow where
  name2 : Option String
  admin : Option String
  continent : Option String
deriving DecidableEq

/-- One row of the left spatial join for a record: a matched boundary, or
`none` for the single null-match row (`index_right` null) a record that
intersects nothing receives. -/
abbrev JoinRow := Option BRow

/-- `row.get(col)` on a join row: the null-match row has no attribute
values. -/
def rowGet (attr : BRow → Option String) : JoinRow → Option String
  | some b => attr b
  | none => none

/-- Python `set.add`, with the set as an insertion-ordered duplicate-free
list. -/
def addSet (s : List String) (x : String) : List String :=
  if x ∈ s then s else s ++ [x]

/-- `if val: s.add(val)` (source lines 172-177): Python truthiness of an
optional string — `None` and the empty string contribute nothing. -/
def addIfTruthy (s : List String) : Option String → List String
  | none => s
  | some v => if v = "" then s else addSet s v

/-- The body of the collection loop of `classify_bbox_scope` (source lines
168-177): read the three attribute columns of one row and add the truthy
values to the three sets. -/
def collectStep (acc : List String × List String × List String)
    (r : JoinRow) : List String × List String × List String :=
  (addIfTruthy acc.1 (rowGet BRow.name2 r),
   addIfTruthy acc.2.1 (rowGet BRow.admin r),
   addIfTruthy acc.2.2 (rowGet BRow.continent r))

/-- The collection loop of `classify_bbox_scope` (source lines 164-177):
one pass over the rows filling the city, country and continent sets. -/
def collectSets (rows : List JoinRow) :
    List String × List String × List String :=
  rows.foldl collectStep ([], [], [])

/-- The rule cascade of `classify_bbox_scope` (source lines 179-189). -/
def scopeOf (cities countries continents : List String) : String :=
  if cities.length = 1 ∧ countries.length = 1 then "city"
  else if countries.length > 1 ∧ continents.length = 1 then "continent"
  else if continents.length > 1 then "global"
  else if cities.length > 1 ∨ countries.length = 1 then "country"
  else "global"

/-- The dictionary `classify_bbox_scope` returns (source lines 191-196). -/
structure Classification where
  scope : String
  cities : List String
  countries : List String
  continents : List String

/-- `classify_bbox_scope` (source lines 153-196). -/
def classify_bbox_scope (rows : List JoinRow) : Classification :=
  let sets := collectSets rows
  { scope := scopeOf sets.1 sets.2.1 sets.2.2
    cities := sets.1
    countries := sets.2.1
    continents := sets.2.2 }

/-- The per-group body of the classification loop (source lines 338-354):
category and place names from the rule cascade, overridden to
`unclassified` / `[]` when the group is exactly one null-match row. -/
def classifyGroup (rows : List JoinRow) : String × List String :=
  let c := classify_bbox_scope rows
  let place_names := c.cities ++ c.countries ++ c.continents
  if rows.length = 1 ∧ rows.head? = some none then ("unclassified", [])
  else (c.scope, place_names)

/-- The group of join rows a staged geometry receives from the left spatial
join (`gpd.sjoin(..., how="left", predicate="intersects")`, source line
218): one row per intersecting boundary, or a single null-match row when
there is none. `intersects g` abstracts the join predicate: the boundary
rows whose geometry intersects `g`. -/
def joinRows (intersects : Geom → List BRow) (g : Geom) : List JoinRow :=
  match intersects g with
  | [] => [none]
  | bs => bs.map some

/-- A raw CMR record as `transform_cmr_to_classes` reads it: every field is
optional, `entry.get(key, default)` supplies the default. Links and
platforms are kept as opaque strings. -/
structure Entry where
  short_name : Option String := none
  title : Option String := none
  links : Option (List String) := none
  summary : Option String := none
  original_format : Option String := none
  boxes : Option (List (List ℚ)) := none
  polygons : Option (List (List (List ℚ))) := none
  points : Option (List (List ℚ)) := none
  time_start : Option String := none
  time_end : Option String := none
  platforms : Option (List String) := none

/-- `dataset_obj` (source lines 253-257). -/
structure DatasetObj where
  short_name : String
  title : String
  links : List String
deriving DecidableEq

/-- `data_category_obj` (source lines 261-263). -/
structure DataCategoryObj where
  summary : String
deriving DecidableEq

/-- `data_format_obj` (source lines 267-269). -/
structure DataFormatObj where
  original_format : String
deriving DecidableEq

/-- A `LocationCategory` entry: `None` is the placeholder pushed for a
record that waits for classification (source line 320). -/
structure LocationCategoryObj where
  category : Option String
deriving DecidableEq

/-- `spatial_extent_obj` (source lines 293-301). -/
structure SpatialExtentObj where
  boxes : List (List ℚ)
  polygons : List (List (List ℚ))
  points : List (List ℚ)
  place_names : List String
  time_start : Option String
  time_end : Option String
  duration_days : Option ℤ

/-- `station_obj` (source lines 304-306). -/
structure StationObj where
  platforms : List String
deriving DecidableEq

/-- The six parallel output tables (source lines 238-245). -/
structure Output where
  «Dataset» : List DatasetObj
  DataCategory : List DataCategoryObj
  DataFormat : List DataFormatObj
  LocationCategory : List LocationCategoryObj
  SpatialExtent : List SpatialExtentObj
  Station : List StationObj

def mkDataset (e : Entry) : DatasetObj :=
  { short_name := e.short_name.getD "N/A"
    title := e.title.getD "N/A"
    links := e.links.getD [] }

def mkDataCategory (e : Entry) : DataCategoryObj :=
  { summary := e.summary.getD "N/A" }

def mkDataFormat (e : Entry) : DataFormatObj :=
  { original_format := e.original_format.getD "N/A" }

def mkStation (e : Entry) : StationObj :=
  { platforms := e.platforms.getD [] }

/-- The duration computation (source lines 278-290): skipped unless both
time strings are present and truthy; `pd.to_datetime` is abstracted as
`parseDT` into seconds (`none` = the parse raised, caught at line 288);
`(end_dt - start_dt).days` floors the difference, `Int.fdiv` here. -/
def durationDays (parseDT : String → Option ℤ)
    (ts te : Option String) : Option ℤ :=
  match ts, te with
  | some s, some t =>
    if s ≠ "" ∧ t ≠ "" then
      match parseDT s, parseDT t with
      | some a, some b => some (Int.fdiv (b - a) 86400)
      | _, _ => none
    else none
  | _, _ => none

def mkSpatialExtent (parseDT : String → Option ℤ) (e : Entry) :
    SpatialExtentObj :=
  { boxes := e.boxes.getD []
    polygons := e.polygons.getD []
    points := e.points.getD []
    place_names := []
    time_start := e.time_start
    time_end := e.time_end
    duration_days := durationDays parseDT e.time_start e.time_end }

/-- The `LocationCategory` entry pushed in the first pass: `"unclassified"`
for a record with no usable geometry (source line 311), the `None`
placeholder otherwise (source line 320). -/
def mkLocationCategory (g? : Option Geom) : LocationCategoryObj :=
  match g? with
  | none => ⟨some "unclassified"⟩
  | some _ => ⟨none⟩

/-- The geometry parse of one record (source lines 273-276). -/
def entryGeometry (union : List Geom → Geom) (e : Entry) :
    Except String (Option Geom) :=
  parse_cmr_spatial union (e.boxes.getD []) (e.polygons.getD [])
    (e.points.getD [])

/-- What the first pass of `transform_cmr_to_classes` accumulates: the six
tables, the staged `(dataset_index, geometry)` list, and `fail_count`. -/
structure Pass1 where
  out : Output
  geoms : List (ℕ × Geom)
  fail_count : ℕ

/-- The per-record loop of `transform_cmr_to_classes` (source lines
251-322), with `idx` the index of the first entry of the remaining list;
a record with no usable geometry gets `category = "unclassified"` and is
counted, others get the `None` placeholder and stage their geometry. -/
def transformPass1Aux (union : List Geom → Geom)
    (parseDT : String → Option ℤ) :
    ℕ → List Entry → Except String Pass1
  | _, [] => .ok ⟨⟨[], [], [], [], [], []⟩, [], 0⟩
  | idx, e :: rest =>
    match entryGeometry union e with
    | .error err => .error err
    | .ok geom? =>
      match transformPass1Aux union parseDT (idx + 1) rest with
      | .error err => .error err
      | .ok p =>
        match geom? with
        | none =>
          .ok
            { out :=
                { «Dataset» := mkDataset e :: p.out.«Dataset»
                  DataCategory := mkDataCategory e :: p.out.DataCategory
                  DataFormat := mkDataFormat e :: p.out.DataFormat
                  LocationCategory :=
                    mkLocationCategory none :: p.out.LocationCategory
                  SpatialExtent :=
                    mkSpatialExtent parseDT e :: p.out.SpatialExtent
                  Station := mkStation e :: p.out.Station }
              geoms := p.geoms
              fail_count := p.fail_count + 1 }
        | some g =>
          .ok
            { out :=
                { «Dataset» := mkDataset e :: p.out.«Dataset»
                  DataCategory := mkDataCategory e :: p.out.DataCategory
                  DataFormat := mkDataFormat e :: p.out.DataFormat
                  LocationCategory :=
                    mkLocationCategory (some g) :: p.out.LocationCategory
                  SpatialExtent :=
                    mkSpatialExtent parseDT e :: p.out.SpatialExtent
                  Station := mkStation e :: p.out.Station }
              geoms := (idx, g) :: p.geoms
              fail_count := p.fail_count }

def transformPass1 (union : List Geom → Geom)
    (parseDT : String → Option ℤ) (entries : List Entry) :
    Except String Pass1 :=
  transformPass1Aux union parseDT 0 entries

/-- `list[i] = f list[i]`, the in-place update of one table cell. -/
def modifyAt {α : Type} (f : α → α) : ℕ → List α → List α
  | _, [] => []
  | 0, x :: xs => f x :: xs
  | n + 1, x :: xs => x :: modifyAt f n xs

/-- The write-back of one group's classification (source lines 338-354):
`output["LocationCategory"][dataset_index]["category"] = scope` and
`output["SpatialExtent"][dataset_index]["place_names"] = place_names`,
with the single-null-row override folded into `classifyGroup`. -/
def applyGroup (intersects : Geom → List BRow) (o : Output)
    (ig : ℕ × Geom) : Output :=
  let r := classifyGroup (joinRows intersects ig.2)
  { o with
    LocationCategory :=
      modifyAt (fun lc => { lc with category := some r.1 }) ig.1
        o.LocationCategory
    SpatialExtent :=
      modifyAt (fun se => { se with place_names := r.2 }) ig.1
        o.SpatialExtent }

/-- The grouped classification loop (source lines 334-354): the staged
list is grouped by `dataset_index` (its indices are strictly increasing,
so each staged pair is its own group) and each group is classified and
written back. -/
def transformWriteback (intersects : Geom → List BRow)
    (geoms : List (ℕ × Geom)) (o : Output) : Output :=
  geoms.foldl (applyGroup intersects) o

/-- `transform_cmr_to_classes` (source lines 225-356): the per-record pass,
the early return when nothing was staged (line 325), then the bulk join
and the grouped write-back. -/
def transform_cmr_to_classes (union : List Geom → Geom)
    (parseDT : String → Option ℤ) (intersects : Geom → List BRow)
    (entries : List Entry) : Except String (Output × ℕ) :=
  match transformPass1 union parseDT entries with
  | .error err => .error err
  | .ok p =>
    if p.geoms.isEmpty then .ok (p.out, p.fail_count)
    else .ok (transformWriteback intersects p.geoms p.out, p.fail_count)

/-! Definitions written from the spec's words (for refinement claims), and
concrete fixtures used by witnesses. -/

/-- The spec's scope-rule table, stated on the three distinct counts, first
matching rule wins: 1. exactly 1 city and exactly 1 country → city;
2. more than 1 country and exactly 1 continent → continent; 3. more than 1
continent → global; 4. more than 1 city or exactly 1 country → country;
5. fallback → global. Written from the spec, to be compared with the
source's `scopeOf`. -/
def scopeSpecRules (nc nk nn : ℕ) : String :=
  if nc = 1 ∧ nk = 1 then "city"
  else if nk > 1 ∧ nn = 1 then "continent"
  else if nn > 1 then "global"
  else if nc > 1 ∨ nk = 1 then "country"
  else "global"

/-- A union satisfying the shapely guarantee the source relies on: the
union of finitely many polygonal geometries is polygonal. -/
def polygonalUnion (union : List Geom → Geom) : Prop :=
  ∀ gs : List Geom, gs ≠ [] → (∀ g ∈ gs, g.isPoly = true) →
    (union gs).isPoly = true

/-- A concrete union for witnesses: a single geometry is returned as is,
anything else fuses the polygonal rings into one MultiPolygon. -/
def unionModel : List Geom → Geom
  | [g] => g
  | gs =>
    .multiPolygon
      (gs.foldr
        (fun g acc =>
          match g with
          | .polygon r => r :: acc
          | .multiPolygon rs => rs ++ acc
          | _ => acc)
        [])

/-- A concrete timestamp parser for witnesses: nothing parses. -/
def parseDT0 : String → Option ℤ := fun _ => none

/-- A concrete join predicate for witnesses: nothing intersects. -/
def int0 : Geom → List BRow := fun _ => []

/-- Did the record's geometry normalization come back empty
(the condition counted at source line 309)? -/
def geomFailed (union : List Geom → Geom) (e : Entry) : Bool :=
  match entryGeometry union e with
  | .ok none => true
  | _ => false

/-- Project the transform's result for witnesses. -/
def outOf : Except String (Output × ℕ) → Output
  | .ok (o, _) => o
  | .error _ => ⟨[], [], [], [], [], []⟩

/-- Project the transform's failure counter for witnesses. -/
def fcOf : Except String (Output × ℕ) → ℕ
  | .ok (_, n) => n
  | .error _ => 0

/-- Project the first pass's result for witnesses. -/
def p1Of : Except String Pass1 → Pass1
  | .ok p => p
  | .error _ => ⟨⟨[], [], [], [], [], []⟩, [], 0⟩

/-- A record carrying one valid box descriptor. -/
def entryBox : Entry := { boxes := some [[0, 0, 1, 1]] }

/-- The geometry `entryBox` normalizes to. -/
def boxGeom : Geom :=
  .polygon [(0, 0), (1, 0), (1, 1), (0, 1), (0, 0)]

/-- A record with no spatial descriptors at all. -/
def entryEmpty : Entry := {}

/-- A record whose single polygon descriptor has an odd token count. -/
def entryOddPoly : Entry := { polygons := some [[[1, 2, 3, 4, 5, 6, 7]]] }

/-! ## Theorems -/

/-- Claim C1: for every record with at least one matched boundary, the
scope label is decided by the five rules in order, first match wins, as the
spec's table states them on the distinct counts; in particular exactly 1
distinct city and exactly 1 distinct country classify as "city" no matter
how many distinct continents matched. -/
theorem c1_scope_rule_cascade (rows : List JoinRow) :
    (classify_bbox_scope rows).scope =
      scopeSpecRules (classify_bbox_scope rows).cities.length
        (classify_bbox_scope rows).countries.length
        (classify_bbox_scope rows).continents.length ∧
    ((classify_bbox_scope rows).cities.length = 1 →
      (classify_bbox_scope rows).countries.length = 1 →
      (classify_bbox_scope rows).scope = "city") := by
  constructor
  · rfl
  · intro h1 h2
    have hs : (classify_bbox_scope rows).scope =
        scopeOf (classify_bbox_scope rows).cities
          (classify_bbox_scope rows).countries
          (classify_bbox_scope rows).continents := rfl
    rw [hs]
    unfold scopeOf
    rw [if_pos ⟨h1, h2⟩]

/-- Claim C5: a box descriptor of exactly four numbers (south, west, north,
east) becomes the closed rectangle with vertices
(w,s),(e,s),(e,n),(w,n),(w,s), and those corners reproduce the original
bounds exactly. -/
theorem c5_box_roundtrip (s w n e : ℚ) :
    parseBox [s, w, n, e] =
      some (.polygon [(w, s), (e, s), (e, n), (w, n), (w, s)]) ∧
    (∀ ps, parseBox [s, w, n, e] = some (.polygon ps) →
      ps[0]? = some (w, s) ∧ ps[1]? = some (e, s) ∧ ps[2]? = some (e, n) ∧
      ps[3]? = some (w, n) ∧ ps[4]? = some (w, s) ∧ ps.length = 5) ∧
    (∀ coords g, parseBox coords = some g → coords.length = 4) := by
  refine ⟨rfl, ?_, ?_⟩
  · intro ps h
    rw [show parseBox [s, w, n, e] =
          some (Geom.polygon [(w, s), (e, s), (e, n), (w, n), (w, s)])
        from rfl] at h
    injection h with h
    injection h with h
    subst h
    exact ⟨rfl, rfl, rfl, rfl, rfl, rfl⟩
  · intro coords g h
    unfold parseBox at h
    split at h
    · simp_all
    · exact absurd h (by simp)

/-- The pairing loop reads the tokens pairwise: token 2i is the latitude,
token 2i+1 the longitude, and pair i is stored as (longitude, latitude). -/
theorem pairUp_get {coords : List ℚ} {pairs : List (ℚ × ℚ)}
    (h : pairUp coords = .ok pairs) :
    ∀ i lat lon, coords[2 * i]? = some lat →
      coords[2 * i + 1]? = some lon → pairs[i]? = some (lon, lat) := by
  induction coords using pairUp.induct generalizing pairs with
  | case1 =>
    intro i lat lon h1 _
    simp at h1
  | case2 x =>
    exact absurd h (by simp [pairUp])
  | case3 lat lon rest ih =>
    rw [pairUp] at h
    cases hr : pairUp rest with
    | error e => rw [hr] at h; exact absurd h (by simp [Except.map])
    | ok ps =>
      rw [hr] at h
      simp only [Except.map] at h
      injection h with h
      subst h
      intro i lat' lon' h1 h2
      cases i with
      | zero =>
        simp at h1 h2
        subst h1; subst h2
        simp
      | succ j =>
        have e1 : 2 * (j + 1) = 2 * j + 1 + 1 := by ring
        have e2 : 2 * (j + 1) + 1 = 2 * j + 1 + 1 + 1 := by ring
        rw [e1] at h1
        rw [e2] at h2
        simp only [List.getElem?_cons_succ] at h1 h2
        simpa using ih hr j lat' lon' h1 h2

/-- A closed ring stays as it is; an open ring gets its first point
appended: either way first and last coincide afterwards. -/
theorem closeRing_closed (ps : List (ℚ × ℚ)) :
    (closeRing ps).head? = (closeRing ps).getLast? := by
  match ps with
  | [] => rfl
  | p :: rest =>
    rw [closeRing]
    split
    next h => rw [List.head?_cons, h]
    next h => rw [List.getLast?_concat, List.cons_append, List.head?_cons]

/-- Inversion of the polygon-descriptor branch: a shape only comes out of
a descriptor with at least 6 tokens whose pairing succeeded, and it is the
closed ring, longer than 2 and not of length 3. -/
theorem parsePolyStr_ok_some {coords : List ℚ} {g : Geom}
    (h : parsePolyStr coords = .ok (some g)) :
    ∃ pairs0, pairUp coords = .ok pairs0 ∧ g = .polygon (closeRing pairs0) ∧
      2 < (closeRing pairs0).length ∧ ¬(closeRing pairs0).length = 3 := by
  unfold parsePolyStr at h
  split at h
  · exact absurd h (by simp)
  · split at h
    next e heq => exact absurd h (by simp)
    next pairs0 heq =>
      have h' :
          (if 2 < (closeRing pairs0).length then
            if (closeRing pairs0).length = 3 then
              (Except.error "ValueError" : Except String (Option Geom))
            else Except.ok (some (Geom.polygon (closeRing pairs0)))
          else Except.ok none) = Except.ok (some g) := h
      clear h
      split at h'
      next hlen =>
        split at h'
        next h3 => exact absurd h' (by simp)
        next h3 =>
          injection h' with h'
          injection h' with h'
          exact ⟨pairs0, heq, h'.symm, hlen, h3⟩
      next hlen => exact absurd h' (by simp)

/-- Claim C6 counterexample: the descriptor with tokens 0 0 0 0 1 1 closes
to the ring (0,0),(0,0),(1,1),(0,0), which has exactly 2 distinct points,
yet the shape is appended rather than skipped. -/
theorem c6_counterexample :
    parsePolyStr [0, 0, 0, 0, 1, 1] =
      .ok (some (.polygon [(0, 0), (0, 0), (1, 1), (0, 0)])) ∧
    (List.dedup [((0 : ℚ), (0 : ℚ)), (0, 0), (1, 1), (0, 0)]).length = 2 ∧
    parsePolyStr [0, 0, 0, 0, 1, 1] ≠ .ok none := by
  refine ⟨rfl, by decide, ?_⟩
  intro h
  rw [show parsePolyStr [0, 0, 0, 0, 1, 1] =
        .ok (some (.polygon [(0, 0), (0, 0), (1, 1), (0, 0)]))
      from rfl] at h
  injection h with h
  exact Option.noConfusion h

/-- Claim C6 as amended: tokens are read pairwise as (lat, lon) and stored
as (lon, lat); a descriptor with fewer than 6 tokens is skipped; any shape
produced is a closed ring (first and last vertex coincide) with more than
2 points counted with multiplicity. -/
theorem c6_ring_normalization :
    (∀ (coords : List ℚ) (pairs : List (ℚ × ℚ)) i lat lon,
      pairUp coords = .ok pairs → coords[2 * i]? = some lat →
      coords[2 * i + 1]? = some lon → pairs[i]? = some (lon, lat)) ∧
    (∀ coords : List ℚ, coords.length < 6 → parsePolyStr coords = .ok none) ∧
    (∀ (coords : List ℚ) (ps : List (ℚ × ℚ)),
      parsePolyStr coords = .ok (some (.polygon ps)) →
      ps.head? = ps.getLast? ∧ 2 < ps.length) := by
  refine ⟨fun coords pairs i lat lon h => pairUp_get h i lat lon, ?_, ?_⟩
  · intro coords h
    unfold parsePolyStr
    rw [if_pos h]
  · intro coords ps h
    obtain ⟨pairs0, -, hg, hlen, -⟩ := parsePolyStr_ok_some h
    injection hg with hg
    subst hg
    exact ⟨closeRing_closed pairs0, hlen⟩

/-- Claim C8 (the failing input): a polygon descriptor with seven tokens
reaches the pairing loop and raises IndexError, aborting the whole batch
instead of being skipped. -/
theorem c8_malformed_descriptor_aborts :
    parse_cmr_spatial unionModel [] [[[1, 2, 3, 4, 5, 6, 7]]] [] =
      .error "IndexError" ∧
    transform_cmr_to_classes unionModel parseDT0 int0 [entryOddPoly] =
      .error "IndexError" :=
  ⟨rfl, rfl⟩

/-- Claim C10: the pipeline is a pure function of the records, the union,
the timestamp parser and the join predicate — running it twice on the same
input yields the same output — and, away from the single-null-row override,
place names are the city names, then the country names, then the continent
names, in that concatenation order. -/
theorem c10_deterministic_place_names :
    (∀ (union : List Geom → Geom) (parseDT : String → Option ℤ)
        (intersects : Geom → List BRow) (entries : List Entry),
      transform_cmr_to_classes union parseDT intersects entries =
        transform_cmr_to_classes union parseDT intersects entries) ∧
    (∀ rows : List JoinRow, ¬(rows.length = 1 ∧ rows.head? = some none) →
      (classifyGroup rows).2 =
        (classify_bbox_scope rows).cities ++
          (classify_bbox_scope rows).countries ++
            (classify_bbox_scope rows).continents) := by
  refine ⟨fun _ _ _ _ => rfl, ?_⟩
  intro rows h
  unfold classifyGroup
  rw [if_neg h]

/-- Claim C4: under the shapely guarantee that a union of polygonal
geometries is polygonal, normalization only ever returns nothing or a
Polygon/MultiPolygon; no shapes give null; a collection with no polygonal
member gives null; a collection with exactly one polygonal member gives
that member. -/
theorem c4_polygonal_invariant (union : List Geom → Geom)
    (hu : polygonalUnion union) :
    (∀ g? r, extract_polygons union g? = some r → r.isPoly = true) ∧
    (∀ boxes polygons points r,
      parse_cmr_spatial union boxes polygons points = .ok (some r) →
      r.isPoly = true) ∧
    (∀ points, parse_cmr_spatial union [] [] points = .ok none) ∧
    (∀ gs, gs.filter Geom.isPoly = [] →
      extract_polygons union (some (.geometryCollection gs)) = none) ∧
    (∀ gs p, gs.filter Geom.isPoly = [p] →
      extract_polygons union (some (.geometryCollection gs)) = some p) := by
  have hext : ∀ g? r, extract_polygons union g? = some r → r.isPoly = true := by
    intro g? r h
    match g? with
    | none => exact Option.noConfusion h
    | some (Geom.polygon ps) =>
      rw [show extract_polygons union (some (Geom.polygon ps)) =
            some (Geom.polygon ps) from rfl] at h
      injection h with h
      subst h
      rfl
    | some (Geom.multiPolygon ps) =>
      rw [show extract_polygons union (some (Geom.multiPolygon ps)) =
            some (Geom.multiPolygon ps) from rfl] at h
      injection h with h
      subst h
      rfl
    | some (Geom.point p) => exact Option.noConfusion h
    | some (Geom.lineString ps) => exact Option.noConfusion h
    | some (Geom.geometryCollection gs) =>
      have h' :
          (match gs.filter Geom.isPoly with
           | [] => (none : Option Geom)
           | [p] => some p
           | polys => some (union polys)) = some r := h
      cases hf : gs.filter Geom.isPoly with
      | nil => rw [hf] at h'; exact Option.noConfusion h'
      | cons p rest =>
        cases rest with
        | nil =>
          rw [hf] at h'
          injection h' with h'
          have hm : p ∈ gs.filter Geom.isPoly := by rw [hf]; simp
          rw [← h']
          exact (List.mem_filter.mp hm).2
        | cons q rest2 =>
          rw [hf] at h'
          injection h' with h'
          subst h'
          refine hu _ (by simp) ?_
          intro g hg
          have hm : g ∈ gs.filter Geom.isPoly := by rw [hf]; exact hg
          exact (List.mem_filter.mp hm).2
  refine ⟨hext, ?_, ?_, ?_, ?_⟩
  · intro boxes polygons points r h
    unfold parse_cmr_spatial at h
    split at h
    · exact Except.noConfusion h
    next polyShapes heq =>
      split at h
      · injection h with h; exact Option.noConfusion h
      · injection h with h; exact hext _ _ h
      · injection h with h; exact hext _ _ h
  · intro points
    rfl
  · intro gs hf
    rw [extract_polygons]
    rw [if_neg (by simp [Geom.isPoly, Geom.geomType])]
    rw [hf]
  · intro gs p hf
    rw [extract_polygons]
    rw [if_neg (by simp [Geom.isPoly, Geom.geomType])]
    rw [hf]

/-- The witness union is polygonal on polygonal inputs. -/
theorem unionModel_polygonal : polygonalUnion unionModel := by
  intro gs hne hall
  match gs with
  | [g] => exact hall g (by simp)
  | [] => exact absurd rfl hne
  | g :: g' :: rest => rfl

/-- Witness for C4 at a concrete input: the normalized box is polygonal. -/
theorem c4_witness :
    Geom.isPoly (.polygon [((0 : ℚ), (0 : ℚ)), (1, 0), (1, 1), (0, 1), (0, 0)]) =
      true :=
  (c4_polygonal_invariant unionModel unionModel_polygonal).2.1
    [[0, 0, 1, 1]] [] [] _ rfl

theorem mem_addSet {s : List String} {x y : String} :
    y ∈ addSet s x ↔ y ∈ s ∨ y = x := by
  unfold addSet
  split
  next h =>
    constructor
    · exact Or.inl
    · rintro (hy | rfl)
      · exact hy
      · exact h
  next h => simp

theorem addSet_nodup {s : List String} {x : String} (h : s.Nodup) :
    (addSet s x).Nodup := by
  unfold addSet
  split
  next => exact h
  next hx => simpa [List.nodup_append] using ⟨h, hx⟩

theorem mem_addIfTruthy {s : List String} {v : Option String} {y : String} :
    y ∈ addIfTruthy s v ↔ y ∈ s ∨ (v = some y ∧ y ≠ "") := by
  match v with
  | none => simp [addIfTruthy]
  | some w =>
    rw [addIfTruthy]
    split
    next hw =>
      subst hw
      constructor
      · exact Or.inl
      · rintro (hy | ⟨hv, hne⟩)
        · exact hy
        · exact absurd (Option.some.inj hv).symm hne
    next hw =>
      rw [mem_addSet]
      constructor
      · rintro (hy | rfl)
        · exact Or.inl hy
        · exact Or.inr ⟨rfl, hw⟩
      · rintro (hy | ⟨hv, -⟩)
        · exact Or.inl hy
        · exact Or.inr (Option.some.inj hv).symm

theorem addIfTruthy_nodup {s : List String} {v : Option String}
    (h : s.Nodup) : (addIfTruthy s v).Nodup := by
  match v with
  | none => exact h
  | some w =>
    rw [addIfTruthy]
    split
    · exact h
    · exact addSet_nodup h

/-- One city-set membership fact for the whole collection fold, stated for
an arbitrary starting accumulator. -/
theorem collect_foldl_mem (attr : BRow → Option String)
    (proj : List String × List String × List String → List String)
    (hproj : ∀ acc r, proj (collectStep acc r) =
      addIfTruthy (proj acc) (rowGet attr r)) :
    ∀ (rows : List JoinRow) (acc : List String × List String × List String)
      (y : String),
      y ∈ proj (rows.foldl collectStep acc) ↔
        y ∈ proj acc ∨ (y ≠ "" ∧ ∃ b, some b ∈ rows ∧ attr b = some y) := by
  intro rows
  induction rows with
  | nil => simp
  | cons r rest ih =>
    intro acc y
    rw [List.foldl_cons, ih, hproj, mem_addIfTruthy]
    constructor
    · rintro ((hy | ⟨hv, hne⟩) | ⟨hne, b, hb, hby⟩)
      · exact Or.inl hy
      · refine Or.inr ⟨hne, ?_⟩
        match r, hv with
        | some b, hv => exact ⟨b, by simp, hv⟩
      · exact Or.inr ⟨hne, b, by simp [hb], hby⟩
    · rintro (hy | ⟨hne, b, hb, hby⟩)
      · exact Or.inl (Or.inl hy)
      · rcases List.mem_cons.mp hb with hb | hb
        · exact Or.inl (Or.inr ⟨by rw [← hb]; exact hby, hne⟩)
        · exact Or.inr ⟨hne, b, hb, hby⟩

/-- The collection fold keeps each set duplicate-free. -/
theorem collect_foldl_nodup (attr : BRow → Option String)
    (proj : List String × List String × List String → List String)
    (hproj : ∀ acc r, proj (collectStep acc r) =
      addIfTruthy (proj acc) (rowGet attr r)) :
    ∀ (rows : List JoinRow) (acc : List String × List String × List String),
      (proj acc).Nodup → (proj (rows.foldl collectStep acc)).Nodup := by
  intro rows
  induction rows with
  | nil => intro acc h; simpa using h
  | cons r rest ih =>
    intro acc h
    rw [List.foldl_cons]
    exact ih _ (by rw [hproj]; exact addIfTruthy_nodup h)

/-- Claim C2: each of the classifier's three sets holds exactly the
distinct, non-empty values of its attribute across the matched boundaries;
missing and empty values contribute nothing, and the null-match row
contributes nothing. -/
theorem c2_distinct_nonempty_names (rows : List JoinRow) :
    ((classify_bbox_scope rows).cities.Nodup ∧
      ∀ y, y ∈ (classify_bbox_scope rows).cities ↔
        y ≠ "" ∧ ∃ b ∈ rows.filterMap id, BRow.name2 b = some y) ∧
    ((classify_bbox_scope rows).countries.Nodup ∧
      ∀ y, y ∈ (classify_bbox_scope rows).countries ↔
        y ≠ "" ∧ ∃ b ∈ rows.filterMap id, BRow.admin b = some y) ∧
    ((classify_bbox_scope rows).continents.Nodup ∧
      ∀ y, y ∈ (classify_bbox_scope rows).continents ↔
        y ≠ "" ∧ ∃ b ∈ rows.filterMap id, BRow.continent b = some y) := by
  have hmem : ∀ b : BRow, some b ∈ rows ↔ b ∈ rows.filterMap id := by
    intro b
    rw [List.mem_filterMap]
    constructor
    · intro h; exact ⟨some b, h, rfl⟩
    · rintro ⟨a, ha, hab⟩
      match a, hab with
      | some b', hab =>
        simp only [id] at hab
        rw [← Option.some.inj hab]
        exact ha
  refine
    ⟨⟨collect_foldl_nodup BRow.name2 (fun t => t.1) (fun _ _ => rfl) rows
        ([], [], []) (by simp), ?_⟩,
     ⟨collect_foldl_nodup BRow.admin (fun t => t.2.1) (fun _ _ => rfl) rows
        ([], [], []) (by simp), ?_⟩,
     ⟨collect_foldl_nodup BRow.continent (fun t => t.2.2) (fun _ _ => rfl) rows
        ([], [], []) (by simp), ?_⟩⟩
  · intro y
    have := collect_foldl_mem BRow.name2 (fun t => t.1) (fun _ _ => rfl) rows
      ([], [], []) y
    simp only [List.not_mem_nil, false_or] at this
    rw [show (classify_bbox_scope rows).cities =
          (rows.foldl collectStep ([], [], [])).1 from rfl, this]
    constructor
    · rintro ⟨hne, b, hb, hby⟩; exact ⟨hne, b, (hmem b).mp hb, hby⟩
    · rintro ⟨hne, b, hb, hby⟩; exact ⟨hne, b, (hmem b).mpr hb, hby⟩
  · intro y
    have := collect_foldl_mem BRow.admin (fun t => t.2.1) (fun _ _ => rfl) rows
      ([], [], []) y
    simp only [List.not_mem_nil, false_or] at this
    rw [show (classify_bbox_scope rows).countries =
          (rows.foldl collectStep ([], [], [])).2.1 from rfl, this]
    constructor
    · rintro ⟨hne, b, hb, hby⟩; exact ⟨hne, b, (hmem b).mp hb, hby⟩
    · rintro ⟨hne, b, hb, hby⟩; exact ⟨hne, b, (hmem b).mpr hb, hby⟩
  · intro y
    have := collect_foldl_mem BRow.continent (fun t => t.2.2) (fun _ _ => rfl)
      rows ([], [], []) y
    simp only [List.not_mem_nil, false_or] at this
    rw [show (classify_bbox_scope rows).continents =
          (rows.foldl collectStep ([], [], [])).2.2 from rfl, this]
    constructor
    · rintro ⟨hne, b, hb, hby⟩; exact ⟨hne, b, (hmem b).mp hb, hby⟩
    · rintro ⟨hne, b, hb, hby⟩; exact ⟨hne, b, (hmem b).mpr hb, hby⟩

/-- Full characterization of the first pass: the six tables are aligned
with the input, the failure counter counts the records without usable
geometry, and the staged list holds exactly the indices of the records
with a usable geometry, in strictly increasing order. -/
theorem pass1Aux_char (union : List Geom → Geom)
    (parseDT : String → Option ℤ) :
    ∀ (entries : List Entry) (idx0 : ℕ) (p : Pass1),
      transformPass1Aux union parseDT idx0 entries = .ok p →
      (p.out.Dataset.length = entries.length ∧
       p.out.DataCategory.length = entries.length ∧
       p.out.DataFormat.length = entries.length ∧
       p.out.LocationCategory.length = entries.length ∧
       p.out.SpatialExtent.length = entries.length ∧
       p.out.Station.length = entries.length) ∧
      p.fail_count = entries.countP (geomFailed union) ∧
      (∀ ig ∈ p.geoms, idx0 ≤ ig.1 ∧ ig.1 < idx0 + entries.length) ∧
      List.Pairwise (· < ·) (p.geoms.map Prod.fst) ∧
      (∀ k e, entries[k]? = some e →
        p.out.Dataset[k]? = some (mkDataset e) ∧
        p.out.DataCategory[k]? = some (mkDataCategory e) ∧
        p.out.DataFormat[k]? = some (mkDataFormat e) ∧
        p.out.Station[k]? = some (mkStation e) ∧
        p.out.SpatialExtent[k]? = some (mkSpatialExtent parseDT e) ∧
        ∃ g?, entryGeometry union e = .ok g? ∧
          p.out.LocationCategory[k]? = some (mkLocationCategory g?) ∧
          ∀ g, ((idx0 + k, g) ∈ p.geoms ↔ g? = some g)) := by
  intro entries
  induction entries with
  | nil =>
    intro idx0 p h
    rw [transformPass1Aux] at h
    injection h with h
    subst h
    refine ⟨by simp, by simp, by simp, by simp, ?_⟩
    intro k e hk
    simp at hk
  | cons e rest ih =>
    intro idx0 p h
    rw [transformPass1Aux] at h
    cases hge : entryGeometry union e with
    | error err => rw [hge] at h; exact Except.noConfusion h
    | ok g? =>
      rw [hge] at h
      cases hrest : transformPass1Aux union parseDT (idx0 + 1) rest with
      | error err => rw [hrest] at h; exact Except.noConfusion h
      | ok pr =>
        rw [hrest] at h
        obtain ⟨⟨l1, l2, l3, l4, l5, l6⟩, hfail, hrange, hpair, hchar⟩ :=
          ih (idx0 + 1) pr hrest
        cases g? with
        | none =>
          have hgf : geomFailed union e = true := by
            unfold geomFailed
            rw [hge]
          injection h with h
          subst h
          refine ⟨⟨by simp [l1], by simp [l2], by simp [l3], by simp [l4],
            by simp [l5], by simp [l6]⟩, ?_, ?_, ?_, ?_⟩
          · show pr.fail_count + 1 = List.countP (geomFailed union) (e :: rest)
            rw [List.countP_cons, hgf, hfail]
            simp
          · intro ig hig
            have := hrange ig hig
            simp only [List.length_cons]
            omega
          · exact hpair
          · intro k e' hk
            cases k with
            | zero =>
              rw [List.getElem?_cons_zero] at hk
              injection hk with hk
              subst hk
              refine ⟨by simp, by simp, by simp, by simp, by simp, none,
                hge, by simp, ?_⟩
              intro g
              simp only [Nat.add_zero]
              constructor
              · intro hmem
                have := hrange _ hmem
                omega
              · intro hfalse
                exact Option.noConfusion hfalse
            | succ k =>
              rw [List.getElem?_cons_succ] at hk
              obtain ⟨d1, d2, d3, d4, d5, g2?, hg2, hlc, hiff⟩ := hchar k e' hk
              refine ⟨by simpa using d1, by simpa using d2, by simpa using d3,
                by simpa using d4, by simpa using d5, g2?, hg2,
                by simpa using hlc, ?_⟩
              intro g
              have harith : idx0 + (k + 1) = idx0 + 1 + k := by ring
              rw [show (({ out := _, geoms := pr.geoms, fail_count := _ } :
                Pass1).geoms) = pr.geoms from rfl, harith]
              exact hiff g
        | some g0 =>
          have hgf : geomFailed union e = false := by
            unfold geomFailed
            rw [hge]
          injection h with h
          subst h
          refine ⟨⟨by simp [l1], by simp [l2], by simp [l3], by simp [l4],
            by simp [l5], by simp [l6]⟩, ?_, ?_, ?_, ?_⟩
          · show pr.fail_count = List.countP (geomFailed union) (e :: rest)
            rw [List.countP_cons, hgf, hfail]
            simp
          · intro ig hig
            simp only [List.mem_cons] at hig
            rcases hig with rfl | hig
            · simp only [List.length_cons]
              omega
            · have := hrange ig hig
              simp only [List.length_cons]
              omega
          · show List.Pairwise (· < ·) (((idx0, g0) :: pr.geoms).map Prod.fst)
            simp only [List.map_cons, List.pairwise_cons]
            refine ⟨?_, hpair⟩
            intro j hj
            simp only [List.mem_map] at hj
            obtain ⟨ig, hig, rfl⟩ := hj
            have := hrange ig hig
            omega
          · intro k e' hk
            cases k with
            | zero =>
              rw [List.getElem?_cons_zero] at hk
              injection hk with hk
              subst hk
              refine ⟨by simp, by simp, by simp, by simp, by simp, some g0,
                hge, by simp, ?_⟩
              intro g
              show (idx0 + 0, g) ∈ (idx0, g0) :: pr.geoms ↔ some g0 = some g
              simp only [Nat.add_zero, List.mem_cons]
              constructor
              · rintro (heq | hmem)
                · rw [(Prod.mk.injEq _ _ _ _).mp heq |>.2]
                · have := hrange _ hmem
                  omega
              · intro hg
                injection hg with hg
                subst hg
                exact Or.inl rfl
            | succ k =>
              rw [List.getElem?_cons_succ] at hk
              obtain ⟨d1, d2, d3, d4, d5, g2?, hg2, hlc, hiff⟩ := hchar k e' hk
              refine ⟨by simpa using d1, by simpa using d2, by simpa using d3,
                by simpa using d4, by simpa using d5, g2?, hg2,
                by simpa using hlc, ?_⟩
              intro g
              show (idx0 + (k + 1), g) ∈ (idx0, g0) :: pr.geoms ↔ g2? = some g
              have harith : idx0 + (k + 1) = idx0 + 1 + k := by ring
              rw [harith, List.mem_cons]
              constructor
              · rintro (heq | hmem)
                · exfalso
                  have := (Prod.mk.injEq _ _ _ _).mp heq |>.1
                  omega
                · exact (hiff g).mp hmem
              · intro hg
                exact Or.inr ((hiff g).mpr hg)

theorem modifyAt_length {α : Type} (f : α → α) :
    ∀ (n : ℕ) (l : List α), (modifyAt f n l).length = l.length := by
  intro n l
  induction l generalizing n with
  | nil => cases n <;> rfl
  | cons x xs ih =>
    cases n with
    | zero => rfl
    | succ m => simp [modifyAt, ih]

theorem modifyAt_get_ne {α : Type} (f : α → α) :
    ∀ (n : ℕ) (l : List α) (i : ℕ), n ≠ i →
      (modifyAt f n l)[i]? = l[i]? := by
  intro n l
  induction l generalizing n with
  | nil => intro i _; cases n <;> rfl
  | cons x xs ih =>
    intro i hne
    cases n with
    | zero =>
      cases i with
      | zero => exact absurd rfl hne
      | succ j => simp [modifyAt]
    | succ m =>
      cases i with
      | zero => simp [modifyAt]
      | succ j =>
        simp only [modifyAt, List.getElem?_cons_succ]
        exact ih m j (by omega)

theorem modifyAt_get_eq {α : Type} (f : α → α) :
    ∀ (n : ℕ) (l : List α), (modifyAt f n l)[n]? = (l[n]?).map f := by
  intro n l
  induction l generalizing n with
  | nil => cases n <;> rfl
  | cons x xs ih =>
    cases n with
    | zero => simp [modifyAt]
    | succ m =>
      simp only [modifyAt, List.getElem?_cons_succ]
      exact ih m

/-- The write-back loop never touches the four pass-through tables and
keeps the lengths of the two it does touch. -/
theorem writeback_tables (intersects : Geom → List BRow) :
    ∀ (geoms : List (ℕ × Geom)) (o : Output),
      (transformWriteback intersects geoms o).Dataset = o.Dataset ∧
      (transformWriteback intersects geoms o).DataCategory = o.DataCategory ∧
      (transformWriteback intersects geoms o).DataFormat = o.DataFormat ∧
      (transformWriteback intersects geoms o).Station = o.Station ∧
      (transformWriteback intersects geoms o).LocationCategory.length =
        o.LocationCategory.length ∧
      (transformWriteback intersects geoms o).SpatialExtent.length =
        o.SpatialExtent.length := by
  intro geoms
  induction geoms with
  | nil => intro o; exact ⟨rfl, rfl, rfl, rfl, rfl, rfl⟩
  | cons ig rest ih =>
    intro o
    obtain ⟨t1, t2, t3, t4, t5, t6⟩ := ih (applyGroup intersects o ig)
    have hstep : transformWriteback intersects (ig :: rest) o =
        transformWriteback intersects rest (applyGroup intersects o ig) := rfl
    refine ⟨hstep ▸ t1, hstep ▸ t2, hstep ▸ t3, hstep ▸ t4, ?_, ?_⟩
    · rw [hstep, t5]
      exact modifyAt_length _ _ _
    · rw [hstep, t6]
      exact modifyAt_length _ _ _

/-- A cell whose index is written by no group is left alone. -/
theorem writeback_get_not_mem (intersects : Geom → List BRow) :
    ∀ (geoms : List (ℕ × Geom)) (o : Output) (i : ℕ),
      i ∉ geoms.map Prod.fst →
      (transformWriteback intersects geoms o).LocationCategory[i]? =
        o.LocationCategory[i]? ∧
      (transformWriteback intersects geoms o).SpatialExtent[i]? =
        o.SpatialExtent[i]? := by
  intro geoms
  induction geoms with
  | nil => intro o i _; exact ⟨rfl, rfl⟩
  | cons ig rest ih =>
    intro o i hmem
    simp only [List.map_cons, List.mem_cons, not_or] at hmem
    obtain ⟨hne, hrest⟩ := hmem
    obtain ⟨w1, w2⟩ := ih (applyGroup intersects o ig) i hrest
    have hstep : transformWriteback intersects (ig :: rest) o =
        transformWriteback intersects rest (applyGroup intersects o ig) := rfl
    rw [hstep]
    refine ⟨w1.trans ?_, w2.trans ?_⟩
    · exact modifyAt_get_ne _ _ _ _ (fun h => hne h.symm)
    · exact modifyAt_get_ne _ _ _ _ (fun h => hne h.symm)

/-- The cell of a staged record receives exactly its own group's
classification: the write-back at `i` and nothing else. -/
theorem writeback_get_mem (intersects : Geom → List BRow) :
    ∀ (geoms : List (ℕ × Geom)) (o : Output) (i : ℕ) (g : Geom),
      List.Pairwise (· < ·) (geoms.map Prod.fst) → (i, g) ∈ geoms →
      (transformWriteback intersects geoms o).LocationCategory[i]? =
        (o.LocationCategory[i]?).map
          (fun lc => { lc with
            category := some (classifyGroup (joinRows intersects g)).1 }) ∧
      (transformWriteback intersects geoms o).SpatialExtent[i]? =
        (o.SpatialExtent[i]?).map
          (fun se => { se with
            place_names := (classifyGroup (joinRows intersects g)).2 }) := by
  intro geoms
  induction geoms with
  | nil => intro o i g _ hmem; exact absurd hmem (List.not_mem_nil _)
  | cons jg rest ih =>
    intro o i g hpair hmem
    simp only [List.map_cons, List.pairwise_cons] at hpair
    obtain ⟨hhead, htail⟩ := hpair
    rcases List.mem_cons.mp hmem with heq | hmem'
    · subst heq
      have hnot : i ∉ rest.map Prod.fst := by
        intro hin
        exact absurd (hhead i hin) (lt_irrefl i)
      obtain ⟨w1, w2⟩ :=
        writeback_get_not_mem intersects rest (applyGroup intersects o (i, g))
          i hnot
      have hstep : transformWriteback intersects ((i, g) :: rest) o =
          transformWriteback intersects rest
            (applyGroup intersects o (i, g)) := rfl
      rw [hstep]
      refine ⟨w1.trans ?_, w2.trans ?_⟩
      · exact modifyAt_get_eq _ _ _
      · exact modifyAt_get_eq _ _ _
    · have hne : jg.1 ≠ i := by
        have : jg.1 < i := hhead i (List.mem_map.mpr ⟨(i, g), hmem', rfl⟩)
        omega
      obtain ⟨w1, w2⟩ := ih (applyGroup intersects o jg) i g htail hmem'
      have hstep : transformWriteback intersects (jg :: rest) o =
          transformWriteback intersects rest (applyGroup intersects o jg) := rfl
      rw [hstep]
      refine ⟨w1.trans ?_, w2.trans ?_⟩
      · rw [show (applyGroup intersects o jg).LocationCategory =
              modifyAt (fun lc => { lc with
                category := some
                  (classifyGroup (joinRows intersects jg.2)).1 }) jg.1
                o.LocationCategory from rfl]
        rw [modifyAt_get_ne _ _ _ _ hne]
      · rw [show (applyGroup intersects o jg).SpatialExtent =
              modifyAt (fun se => { se with
                place_names :=
                  (classifyGroup (joinRows intersects jg.2)).2 }) jg.1
                o.SpatialExtent from rfl]
        rw [modifyAt_get_ne _ _ _ _ hne]

/-- Unfolding of the transform when the first pass succeeded and staged at
least one geometry. -/
theorem transform_eq_writeback (union : List Geom → Geom)
    (parseDT : String → Option ℤ) (intersects : Geom → List BRow)
    (entries : List Entry) (p : Pass1)
    (h1 : transformPass1 union parseDT entries = .ok p)
    (hne : p.geoms ≠ []) :
    transform_cmr_to_classes union parseDT intersects entries =
      .ok (transformWriteback intersects p.geoms p.out, p.fail_count) := by
  unfold transform_cmr_to_classes
  rw [h1]
  have hemp : p.geoms.isEmpty = false := by
    cases hg : p.geoms with
    | nil => exact absurd hg hne
    | cons a l => rfl
  simp only [hemp]
  rfl

/-- Claim C3: a record whose staged geometry intersects no boundary gets
the single null join row, forcing its final category to "unclassified"
and its place names to the empty list, whatever the rule cascade said. -/
theorem c3_zero_match_override (union : List Geom → Geom)
    (parseDT : String → Option ℤ) (intersects : Geom → List BRow)
    (entries : List Entry) (p : Pass1) (idx : ℕ) (g : Geom)
    (out : Output) (fc : ℕ)
    (h1 : transformPass1 union parseDT entries = .ok p)
    (h2 : (idx, g) ∈ p.geoms)
    (h3 : intersects g = [])
    (h4 : transform_cmr_to_classes union parseDT intersects entries =
      .ok (out, fc)) :
    joinRows intersects g = [none] ∧
    out.LocationCategory[idx]? = some ⟨some "unclassified"⟩ ∧
    ∃ se, out.SpatialExtent[idx]? = some se ∧ se.place_names = [] := by
  have hnil : joinRows intersects g = [none] := by
    rw [joinRows, h3]
  have hcg : classifyGroup (joinRows intersects g) = ("unclassified", []) := by
    rw [hnil]
    rfl
  obtain ⟨⟨l1, l2, l3, l4, l5, l6⟩, -, hrange, hpair, -⟩ :=
    pass1Aux_char union parseDT entries 0 p h1
  have hidx : idx < entries.length := by
    have := hrange (idx, g) h2
    simpa using this.2
  have hne : p.geoms ≠ [] := List.ne_nil_of_mem h2
  rw [transform_eq_writeback union parseDT intersects entries p h1 hne] at h4
  injection h4 with h4
  have hout : out = transformWriteback intersects p.geoms p.out :=
    congrArg Prod.fst h4.symm
  subst hout
  obtain ⟨w1, w2⟩ :=
    writeback_get_mem intersects p.geoms p.out idx g hpair h2
  refine ⟨hnil, ?_, ?_⟩
  · rw [w1, hcg]
    have : idx < p.out.LocationCategory.length := by omega
    rw [List.getElem?_eq_getElem this]
    cases p.out.LocationCategory[idx] with
    | mk cat => rfl
  · rw [w2, hcg]
    have : idx < p.out.SpatialExtent.length := by omega
    rw [List.getElem?_eq_getElem this]
    exact ⟨_, rfl, rfl⟩

/-- Witness for C3: a one-record batch whose box geometry intersects
nothing comes out unclassified with no place names. -/
theorem c3_witness :
    joinRows int0 boxGeom = [none] ∧
    (outOf (transform_cmr_to_classes unionModel parseDT0 int0
      [entryBox])).LocationCategory[0]? = some ⟨some "unclassified"⟩ ∧
    ∃ se,
      (outOf (transform_cmr_to_classes unionModel parseDT0 int0
        [entryBox])).SpatialExtent[0]? = some se ∧ se.place_names = [] :=
  c3_zero_match_override unionModel parseDT0 int0 [entryBox]
    (p1Of (transformPass1 unionModel parseDT0 [entryBox])) 0 boxGeom
    (outOf (transform_cmr_to_classes unionModel parseDT0 int0 [entryBox]))
    (fcOf (transform_cmr_to_classes unionModel parseDT0 int0 [entryBox]))
    rfl (List.mem_singleton.mpr rfl) rfl rfl

/-- Claim C7: whenever the transform completes, each of the six output
tables has exactly one entry per input record, in input order, index `i`
everywhere referring to record `i`; the failure counter counts exactly the
records without usable geometry; and such a record keeps
category "unclassified" with empty place names and is never staged for the
join. -/
theorem c7_aligned_tables (union : List Geom → Geom)
    (parseDT : String → Option ℤ) (intersects : Geom → List BRow)
    (entries : List Entry) (out : Output) (fc : ℕ)
    (h : transform_cmr_to_classes union parseDT intersects entries =
      .ok (out, fc)) :
    (out.Dataset.length = entries.length ∧
     out.DataCategory.length = entries.length ∧
     out.DataFormat.length = entries.length ∧
     out.LocationCategory.length = entries.length ∧
     out.SpatialExtent.length = entries.length ∧
     out.Station.length = entries.length) ∧
    fc = entries.countP (geomFailed union) ∧
    (∀ i e, entries[i]? = some e →
      out.Dataset[i]? = some (mkDataset e) ∧
      out.DataCategory[i]? = some (mkDataCategory e) ∧
      out.DataFormat[i]? = some (mkDataFormat e) ∧
      out.Station[i]? = some (mkStation e) ∧
      (entryGeometry union e = .ok none →
        out.LocationCategory[i]? = some ⟨some "unclassified"⟩ ∧
        out.SpatialExtent[i]? = some (mkSpatialExtent parseDT e) ∧
        (mkSpatialExtent parseDT e).place_names = [] ∧
        ∀ p g, transformPass1 union parseDT entries = .ok p →
          (i, g) ∉ p.geoms)) := by
  unfold transform_cmr_to_classes at h
  cases h1 : transformPass1 union parseDT entries with
  | error err => rw [h1] at h; exact Except.noConfusion h
  | ok p =>
    rw [h1] at h
    replace h :
        (if p.geoms.isEmpty = true then
          Except.ok (p.out, p.fail_count)
        else
          Except.ok (transformWriteback intersects p.geoms p.out,
            p.fail_count)) = Except.ok (out, fc) := h
    obtain ⟨⟨l1, l2, l3, l4, l5, l6⟩, hfail, hrange, hpair, hchar⟩ :=
      pass1Aux_char union parseDT entries 0 p h1
    have hmain :
        out.Dataset = p.out.Dataset ∧ out.DataCategory = p.out.DataCategory ∧
        out.DataFormat = p.out.DataFormat ∧ out.Station = p.out.Station ∧
        out.LocationCategory.length = p.out.LocationCategory.length ∧
        out.SpatialExtent.length = p.out.SpatialExtent.length ∧
        fc = p.fail_count ∧
        (∀ i, i ∉ p.geoms.map Prod.fst →
          out.LocationCategory[i]? = p.out.LocationCategory[i]? ∧
          out.SpatialExtent[i]? = p.out.SpatialExtent[i]?) := by
      by_cases hemp : p.geoms.isEmpty
      · rw [if_pos hemp] at h
        injection h with h
        have ho : out = p.out := congrArg Prod.fst h.symm
        have hf : fc = p.fail_count := congrArg Prod.snd h.symm
        subst ho
        exact ⟨rfl, rfl, rfl, rfl, rfl, rfl, hf, fun i _ => ⟨rfl, rfl⟩⟩
      · rw [if_neg hemp] at h
        injection h with h
        have ho : out = transformWriteback intersects p.geoms p.out :=
          congrArg Prod.fst h.symm
        have hf : fc = p.fail_count := congrArg Prod.snd h.symm
        subst ho
        obtain ⟨t1, t2, t3, t4, t5, t6⟩ := writeback_tables intersects p.geoms p.out
        exact ⟨t1, t2, t3, t4, t5, t6, hf,
          fun i hi => writeback_get_not_mem intersects p.geoms p.out i hi⟩
    obtain ⟨m1, m2, m3, m4, m5, m6, m7, muntouched⟩ := hmain
    refine ⟨⟨by rw [m1, l1], by rw [m2, l2], by rw [m3, l3], by omega,
      by omega, by rw [m4, l6]⟩, by rw [m7, hfail], ?_⟩
    intro i e hi
    obtain ⟨d1, d2, d3, d4, d5, g?, hge, hlc, hiff⟩ := hchar i e hi
    refine ⟨by rw [m1]; exact d1, by rw [m2]; exact d2, by rw [m3]; exact d3,
      by rw [m4]; exact d4, ?_⟩
    intro hnone
    rw [hnone] at hge
    injection hge with hge
    have hnotstage : i ∉ p.geoms.map Prod.fst := by
      intro hin
      obtain ⟨ig, hig, hfst⟩ := List.mem_map.mp hin
      have := (hiff ig.2).mp (by
        have : (0 + i, ig.2) = ig := by
          rw [← hfst]
          simp
        rw [this]
        exact hig)
      rw [← hge] at this
      exact Option.noConfusion this
    obtain ⟨u1, u2⟩ := muntouched i hnotstage
    refine ⟨?_, ?_, rfl, ?_⟩
    · rw [u1, hlc, ← hge]
      rfl
    · rw [u2]
      exact d5
    · intro p' g hp' hmem
      have hpp : p = p' := by injection hp'
      subst hpp
      have hin := (hiff g).mp (by simpa using hmem)
      rw [← hge] at hin
      exact Option.noConfusion hin

/-- Witness for C7: a two-record batch with one valid box record and one
record with no spatial descriptors. -/
theorem c7_witness :
    (outOf (transform_cmr_to_classes unionModel parseDT0 int0
      [entryBox, entryEmpty])).Dataset.length = 2 ∧
    fcOf (transform_cmr_to_classes unionModel parseDT0 int0
      [entryBox, entryEmpty]) = 1 ∧
    (outOf (transform_cmr_to_classes unionModel parseDT0 int0
      [entryBox, entryEmpty])).LocationCategory[1]? =
      some ⟨some "unclassified"⟩ := by
  have h := c7_aligned_tables unionModel parseDT0 int0 [entryBox, entryEmpty]
    (outOf (transform_cmr_to_classes unionModel parseDT0 int0
      [entryBox, entryEmpty]))
    (fcOf (transform_cmr_to_classes unionModel parseDT0 int0
      [entryBox, entryEmpty])) rfl
  refine ⟨h.1.1, ?_, ?_⟩
  · rw [h.2.1]
    rfl
  · exact ((h.2.2 1 entryEmpty rfl).2.2.2.2 rfl).1

/-- The first pass is insensitive to the timestamp parser everywhere except
the stored `duration_days`: same staged geometries, same failure counter,
same categories. -/
theorem pass1_parseDT_independent (union : List Geom → Geom)
    (pd1 pd2 : String → Option ℤ) :
    ∀ (entries : List Entry) (idx0 : ℕ) (p1 : Pass1),
      transformPass1Aux union pd1 idx0 entries = .ok p1 →
      ∃ p2, transformPass1Aux union pd2 idx0 entries = .ok p2 ∧
        p2.geoms = p1.geoms ∧ p2.fail_count = p1.fail_count ∧
        p2.out.LocationCategory = p1.out.LocationCategory := by
  intro entries
  induction entries with
  | nil =>
    intro idx0 p1 h
    rw [transformPass1Aux] at h
    injection h with h
    subst h
    exact ⟨_, rfl, rfl, rfl, rfl⟩
  | cons e rest ih =>
    intro idx0 p1 h
    rw [transformPass1Aux] at h
    cases hge : entryGeometry union e with
    | error err => rw [hge] at h; exact Except.noConfusion h
    | ok g? =>
      rw [hge] at h
      cases hrest : transformPass1Aux union pd1 (idx0 + 1) rest with
      | error err => rw [hrest] at h; exact Except.noConfusion h
      | ok pr =>
        rw [hrest] at h
        obtain ⟨pr2, hpr2, e1, e2, e3⟩ := ih (idx0 + 1) pr hrest
        cases g? with
        | none =>
          injection h with h
          subst h
          have hcomp : transformPass1Aux union pd2 idx0 (e :: rest) = .ok
              { out :=
                  { «Dataset» := mkDataset e :: pr2.out.«Dataset»
                    DataCategory := mkDataCategory e :: pr2.out.DataCategory
                    DataFormat := mkDataFormat e :: pr2.out.DataFormat
                    LocationCategory :=
                      mkLocationCategory none :: pr2.out.LocationCategory
                    SpatialExtent :=
                      mkSpatialExtent pd2 e :: pr2.out.SpatialExtent
                    Station := mkStation e :: pr2.out.Station }
                geoms := pr2.geoms
                fail_count := pr2.fail_count + 1 } := by
            rw [transformPass1Aux, hge, hpr2]
          exact ⟨_, hcomp, by simp [e1], by simp [e2], by simp [e3]⟩
        | some g0 =>
          injection h with h
          subst h
          have hcomp : transformPass1Aux union pd2 idx0 (e :: rest) = .ok
              { out :=
                  { «Dataset» := mkDataset e :: pr2.out.«Dataset»
                    DataCategory := mkDataCategory e :: pr2.out.DataCategory
                    DataFormat := mkDataFormat e :: pr2.out.DataFormat
                    LocationCategory :=
                      mkLocationCategory (some g0) :: pr2.out.LocationCategory
                    SpatialExtent :=
                      mkSpatialExtent pd2 e :: pr2.out.SpatialExtent
                    Station := mkStation e :: pr2.out.Station }
                geoms := (idx0, g0) :: pr2.geoms
                fail_count := pr2.fail_count } := by
            rw [transformPass1Aux, hge, hpr2]
          exact ⟨_, hcomp, by simp [e1], by simp [e2], by simp [e3]⟩

/-- Claim C9: `duration_days` is the floored whole-day difference of the
parsed timestamps exactly when both timestamps are present, truthy and
parse; in every other case it is null; and the timestamps have no effect
on the record's geometry or on the classification path (staged geometries,
failure counter and categories are the same for any timestamp parser). -/
theorem c9_duration_days (parseDT : String → Option ℤ) :
    (∀ ts te d, durationDays parseDT ts te = some d ↔
      ∃ s t a b, ts = some s ∧ te = some t ∧ ¬s = "" ∧ ¬t = "" ∧
        parseDT s = some a ∧ parseDT t = some b ∧
        d = Int.fdiv (b - a) 86400) ∧
    (∀ (union : List Geom → Geom) (e : Entry) ts te,
      entryGeometry union { e with time_start := ts, time_end := te } =
        entryGeometry union e) ∧
    (∀ (union : List Geom → Geom) (entries : List Entry) (p1 : Pass1),
      transformPass1 union parseDT entries = .ok p1 →
      ∀ parseDT2 : String → Option ℤ, ∃ p2,
        transformPass1 union parseDT2 entries = .ok p2 ∧
        p2.geoms = p1.geoms ∧ p2.fail_count = p1.fail_count ∧
        p2.out.LocationCategory = p1.out.LocationCategory) := by
  refine ⟨?_, fun union e ts te => rfl, ?_⟩
  · intro ts te d
    match ts, te with
    | none, _ =>
      simp only [durationDays]
      constructor
      · intro h; exact Option.noConfusion h
      · rintro ⟨s, t, a, b, hs, -⟩; exact Option.noConfusion hs
    | some s, none =>
      simp only [durationDays]
      constructor
      · intro h; exact Option.noConfusion h
      · rintro ⟨s', t, a, b, -, ht, -⟩; exact Option.noConfusion ht
    | some s, some t =>
      have hred : durationDays parseDT (some s) (some t) =
          (if ¬s = "" ∧ ¬t = "" then
            (match parseDT s, parseDT t with
             | some a, some b => some (Int.fdiv (b - a) 86400)
             | _, _ => none)
          else none) := rfl
      rw [hred]
      constructor
      · intro h
        split at h
        next hc =>
          cases ha : parseDT s with
          | none =>
            rw [ha] at h
            cases hb : parseDT t with
            | none => rw [hb] at h; exact Option.noConfusion h
            | some b => rw [hb] at h; exact Option.noConfusion h
          | some a =>
            rw [ha] at h
            cases hb : parseDT t with
            | none => rw [hb] at h; exact Option.noConfusion h
            | some b =>
              rw [hb] at h
              injection h with h
              exact ⟨s, t, a, b, rfl, rfl, hc.1, hc.2, ha, hb, h.symm⟩
        next hc => exact Option.noConfusion h
      · rintro ⟨s', t', a, b, hs, ht, hs1, ht1, ha, hb, hd⟩
        injection hs with hs
        injection ht with ht
        subst hs
        subst ht
        rw [if_pos ⟨hs1, ht1⟩, ha, hb, hd]
  · intro union entries p1 h parseDT2
    exact pass1_parseDT_independent union parseDT parseDT2 entries 0 p1 h

end NasaKG
